import Mathlib

/-!
A shallow embedding of the RPC server in `server/src/main.rs` (a single-file
Rust program): the JSON value model, the request decoder, the method table,
the five leaf methods, and the dispatch/response logic of `main`, together
with theorems checking the specification's claims against them.

Modelling conventions:
* `serde_json::Value` becomes the inductive `Value`; JSON numbers keep the
  distinction serde_json makes between integer literals and floating-point
  literals (`JNum.int` vs `JNum.float`), with the numeric value carried as an
  exact rational (`as_f64`'s rounding of a decimal literal to the nearest
  double is idealised away; no claim depends on that rounding).
* The IEEE-754 special values that `nroot` can produce through `1.0 / 0.0`
  are modelled by `F64`, with `powf` at an infinite exponent following the
  IEEE-754 `pow` special cases.
* Rust `Result<(String, String), String>` becomes
  `Except String (String × String)`.
* The network layer is out of scope; one request/response cycle is modelled
  from the point where the trimmed line has been handed to
  `serde_json::from_str` (`processLine` takes `some v` for a line that is
  syntactically valid JSON `v`, and `none` for a line that is not JSON at
  all — both decode-failure routes reach the same `Err` arm of `main`).
-/

/-- A JSON number as stored by serde_json: an integer literal is kept as an
integer (`PosInt`/`NegInt`), any literal with a fraction or exponent as a
float.  The float payload is the exact rational value of the literal. -/
inductive JNum where
  | int (n : ℤ)
  | float (q : ℚ)
deriving DecidableEq

/-- `serde_json::Number::as_f64`: every stored number converts to a double;
idealised here as the exact rational value. -/
def JNum.as_f64 : JNum → ℚ
  | .int n => (n : ℚ)
  | .float q => q

/-- `serde_json::Value`.  Objects are association lists of distinct keys
(serde_json's map cannot hold duplicate keys). -/
inductive Value where
  | null
  | bool (b : Bool)
  | num (n : JNum)
  | str (s : String)
  | arr (items : List Value)
  | obj (fields : List (String × Value))

/-- `Value::as_f64`: `Some` exactly on numbers. -/
def Value.as_f64 : Value → Option ℚ
  | .num n => some n.as_f64
  | _ => none

/-- `Value::as_str`: `Some` exactly on strings. -/
def Value.as_str : Value → Option String
  | .str s => some s
  | _ => none

/-- `Value::as_array`: `Some` exactly on arrays. -/
def Value.as_array : Value → Option (List Value)
  | .arr items => some items
  | _ => none

/-- The IEEE-754 doubles relevant to this program: finite values (idealised
as exact rationals), the two infinities and NaN. -/
inductive F64 where
  | finite (q : ℚ)
  | inf
  | negInf
  | nan
deriving DecidableEq

/-- Whether a double is infinite or NaN. -/
def F64.isInfOrNan : F64 → Bool
  | .finite _ => false
  | _ => true

/-- Rust `Display` for `f64`: `"inf"`, `"-inf"`, `"NaN"` for the special
values; an integral finite value prints as a plain integer (`3.0_f64`
prints `"3"`).  Rust prints a non-integral finite double as its shortest
round-tripping decimal; that case is rendered here as the raw rational and
no claim depends on it. -/
def F64.display : F64 → String
  | .inf => "inf"
  | .negInf => "-inf"
  | .nan => "NaN"
  | .finite q => if q.den = 1 then toString q.num else toString q

/-- `1.0 / n` for a finite double `n`: division by (positive) zero yields
`+∞`; otherwise the finite quotient (idealised as exact). -/
def oneDivF64 (n : ℚ) : F64 :=
  if n = 0 then .inf else .finite (1 / n)

/-- Placeholder for `x.powf(e)` at a finite exponent: the value is an
irrational real in general and lies outside the rational model; no claim
depends on it, and no theorem below inspects this value. -/
def powfFinitePlaceholder (_x _e : ℚ) : ℚ := 0

/-- `f64::powf` with the IEEE-754 `pow` special cases for an infinite or NaN
exponent: `pow(x, +inf)` is `+inf` for `|x| > 1`, `1` for `|x| = 1` and `+0`
for `|x| < 1`, and symmetrically for `-inf`. -/
def powfF64 (x : ℚ) : F64 → F64
  | .inf => if 1 < |x| then .inf else if |x| = 1 then .finite 1 else .finite 0
  | .negInf => if 1 < |x| then .finite 0 else if |x| = 1 then .finite 1 else .inf
  | .nan => .nan
  | .finite e => .finite (powfFinitePlaceholder x e)

/-- The double computed by `rpc_nroot`'s success path: `x.powf(1.0 / n)`. -/
def nroot_float (n x : ℚ) : F64 := powfF64 x (oneDivF64 n)

/-- `Vec<char>::sort()`: a stable sort in Rust's `Ord` order on `char`,
which is code-point order and coincides with Lean's `Char` order. -/
def csort (l : List Char) : List Char := l.mergeSort (fun a b => decide (a ≤ b))

/-- Rust `Ord` on `str`/`String` as a boolean `≤`: lexicographic comparison.
Rust compares UTF-8 byte sequences; byte order and code-point order agree, so
this compares the code points. -/
def lexLe : List Char → List Char → Bool
  | [], _ => true
  | _ :: _, [] => false
  | c :: cs, d :: ds => if c < d then true else if d < c then false else lexLe cs ds

/-- Boolean `≤` on `String` induced by `lexLe`. -/
def strLe (a b : String) : Bool := lexLe a.toList b.toList

/-- `Vec<String>::sort()`: a stable sort in ascending lexicographic order. -/
def sortStrings (l : List String) : List String := l.mergeSort strLe

/-- serde_json's escaping of one character inside a JSON string literal:
quote, backslash and the C0 control characters are escaped, everything else
is emitted verbatim. -/
def escapeChar (c : Char) : String :=
  if c = '"' then "\\\""
  else if c = '\\' then "\\\\"
  else if c.toNat = 8 then "\\b"
  else if c = '\t' then "\\t"
  else if c = '\n' then "\\n"
  else if c.toNat = 12 then "\\f"
  else if c = '\r' then "\\r"
  else if c.toNat < 32 then
    "\\u" ++ String.mk [Nat.digitChar (c.toNat / 4096 % 16), Nat.digitChar (c.toNat / 256 % 16),
      Nat.digitChar (c.toNat / 16 % 16), Nat.digitChar (c.toNat % 16)]
  else String.singleton c

/-- serde_json's serialisation of one string. -/
def encodeJsonString (s : String) : String :=
  "\"" ++ String.join (s.toList.map escapeChar) ++ "\""

/-- `serde_json::to_string(&Vec<String>)`: a compact JSON array of strings. -/
def encodeStringList (l : List String) : String :=
  "[" ++ String.intercalate "," (l.map encodeJsonString) ++ "]"

/-- The type of a registered method (`type RpcMethod` in the source). -/
def RpcMethod : Type := Value → Except String (String × String)

/-- `rpc_floor`: first positional argument must be a number; returns its
floor rendered as a double (an integral double prints as a plain integer),
tagged `"int"`. -/
def rpc_floor : RpcMethod := fun params =>
  match params.as_array with
  | some arr =>
    match arr.head?.bind Value.as_f64 with
    | some num => .ok (toString (Int.floor num), "int")
    | none => .error "Invalid params"
  | none => .error "Invalid params"

/-- `rpc_nroot`: needs at least two positional arguments, the first two being
numbers `n` and `x`; returns `x.powf(1.0 / n)` stringified, tagged
`"double"`. -/
def rpc_nroot : RpcMethod := fun params =>
  match params.as_array with
  | some arr =>
    if arr.length ≥ 2 then
      match arr.head?.bind Value.as_f64, arr[1]?.bind Value.as_f64 with
      | some n, some x => .ok ((nroot_float n x).display, "double")
      | _, _ => .error "Invalid params"
    else .error "Invalid params"
  | none => .error "Invalid params"

/-- `rpc_reverse`: first positional argument must be a string; returns its
characters in reverse order, tagged `"string"`. -/
def rpc_reverse : RpcMethod := fun params =>
  match params.as_array with
  | some arr =>
    match arr.head?.bind Value.as_str with
    | some s => .ok (String.mk s.toList.reverse, "string")
    | none => .error "Invalid params"
  | none => .error "Invalid params"

/-- `rpc_valid_anagram`: needs at least two positional arguments, the first
two being strings; sorts the character vectors of both and compares them,
returning `"true"`/`"false"` tagged `"bool"`. -/
def rpc_valid_anagram : RpcMethod := fun params =>
  match params.as_array with
  | some arr =>
    if arr.length ≥ 2 then
      match arr.head?.bind Value.as_str, arr[1]?.bind Value.as_str with
      | some str1, some str2 =>
        .ok (toString (csort str1.toList == csort str2.toList), "bool")
      | _, _ => .error "Invalid params"
    else .error "Invalid params"
  | none => .error "Invalid params"

/-- The element loop of `rpc_sort`: every element of the inner array must be
a string, otherwise `Err("Invalid params")`. -/
def collectStrings : List Value → Except String (List String)
  | [] => .ok []
  | item :: rest =>
    match item.as_str with
    | some s => (collectStrings rest).map (fun l => s :: l)
    | none => .error "Invalid params"

/-- `rpc_sort`: first positional argument must be an array of strings;
returns the sorted strings re-encoded as a JSON array, that JSON text being
the result string, tagged `"string"`. -/
def rpc_sort : RpcMethod := fun params =>
  match params.as_array with
  | some arr =>
    match arr.head?.bind Value.as_array with
    | some str_arr =>
      match collectStrings str_arr with
      | .ok strings => .ok (encodeStringList (sortStrings strings), "string")
      | .error e => .error e
    | none => .error "Invalid params"
  | none => .error "Invalid params"

/-- `create_method_table`: the five registered methods.  The source inserts
them into a `HashMap`; an association list with the same (distinct) keys is
an equivalent model of its lookup behaviour. -/
def create_method_table : List (String × RpcMethod) :=
  [("floor", rpc_floor), ("nroot", rpc_nroot), ("reverse", rpc_reverse),
   ("valid_anagram", rpc_valid_anagram), ("sort", rpc_sort)]

/-- `method_table.get(&request.method)`. -/
def method_table_get (name : String) : Option RpcMethod :=
  (create_method_table.find? (fun entry => entry.1 == name)).map (fun entry => entry.2)

/-- `struct RpcRequest` (the decoded form; `id` is a `u64`). -/
structure RpcRequest where
  method : String
  params : Value
  param_types : Option (List String)
  id : ℕ

/-- Field access in a serde_json object (keys are distinct, so first match). -/
def lookupField (fields : List (String × Value)) (key : String) : Option Value :=
  (fields.find? (fun f => f.1 == key)).map (fun f => f.2)

/-- Deserialisation of `Vec<String>` from a JSON array's elements. -/
def decodeStringList : List Value → Option (List String)
  | [] => some []
  | .str s :: rest => (decodeStringList rest).map (fun l => s :: l)
  | _ :: _ => none

/-- Deserialisation of the optional `param_types: Option<Vec<String>>` field:
absent or `null` gives `None`; an array of strings gives `Some`; anything
else is a decode error. -/
def decodeParamTypes : Option Value → Option (Option (List String))
  | none => some none
  | some .null => some none
  | some (.arr items) => (decodeStringList items).map some
  | some _ => none

/-- serde's derived `Deserialize for RpcRequest` on an already-parsed JSON
value: requires an object with a string `method`, any `params`, a `u64` `id`
(an integer literal in `[0, 2^64)`), and a well-typed optional
`param_types`; unknown extra fields are ignored (no `deny_unknown_fields`). -/
def decodeRpcRequest (v : Value) : Option RpcRequest :=
  match v with
  | .obj fields =>
    match lookupField fields "method", lookupField fields "params",
        lookupField fields "id", decodeParamTypes (lookupField fields "param_types") with
    | some (.str m), some p, some (.num (.int n)), some pt =>
      if 0 ≤ n ∧ n < 2 ^ 64 then some ⟨m, p, pt, n.toNat⟩ else none
    | _, _, _, _ => none
  | _ => none

/-- The response written back for one request line: either the success shape
`{result, result_type, id}` or the error shape `{error: {code, message}, id}`. -/
inductive RpcOutput where
  | success (result : String) (result_type : String) (id : ℕ)
  | error (code : ℤ) (message : String) (id : ℕ)
deriving DecidableEq

/-- The dispatch of `main` on a successfully decoded request: method lookup,
invocation, and mapping of the outcome to a response. -/
def processRequest (request : RpcRequest) : RpcOutput :=
  match method_table_get request.method with
  | some method_fn =>
    match method_fn request.params with
    | .ok (result, result_type) => .success result result_type request.id
    | .error err_msg => .error (-32602) err_msg request.id
  | none => .error (-32601) "Method not found" request.id

/-- One decode→dispatch→encode cycle of `main` on a trimmed input line,
starting from the JSON parse: `some v` is a line that parses as the JSON
value `v`, `none` a line that is not JSON; a parse failure and a
shape-mismatch both take the same `Err` arm. -/
def processLine (parsed : Option Value) : RpcOutput :=
  match parsed.bind decodeRpcRequest with
  | some request => processRequest request
  | none => .error (-32602) "Invalid params" 0

/-! ### Order bridge: the Rust comparators against Lean's orders -/

theorem lexLe_iff_not_lex : (cs ds : List Char) → (lexLe cs ds = true ↔ ¬ List.Lex (· < ·) ds cs)
  | [], ds =>
    ⟨fun _ => List.Lex.not_nil_right _ _, fun _ => rfl⟩
  | c :: cs, [] => by
    constructor
    · intro h
      exact Bool.noConfusion h
    · intro h
      exact absurd List.Lex.nil h
  | c :: cs, d :: ds => by
    have ih := lexLe_iff_not_lex cs ds
    show (if c < d then true else if d < c then false else lexLe cs ds) = true ↔ _
    rcases lt_trichotomy c d with hcd | hcd | hcd
    · rw [if_pos hcd]
      constructor
      · intro _ hlt
        cases hlt with
        | rel h => exact absurd h (lt_asymm hcd)
        | cons h => exact absurd hcd (lt_irrefl _)
      · intro _
        rfl
    · subst hcd
      rw [if_neg (lt_irrefl c), if_neg (lt_irrefl c)]
      constructor
      · intro h hlt
        cases hlt with
        | rel h => exact absurd h (lt_irrefl c)
        | cons h => exact (ih.mp ‹_›) h
      · intro h
        exact ih.mpr (fun h2 => h (List.Lex.cons h2))
    · rw [if_neg (lt_asymm hcd), if_pos hcd]
      constructor
      · intro h
        exact Bool.noConfusion h
      · intro h
        exact absurd (List.Lex.rel hcd) h

theorem strLe_eq_true_iff (a b : String) : strLe a b = true ↔ a ≤ b := by
  rw [String.le_iff_toList_le, ← not_lt]
  exact lexLe_iff_not_lex a.toList b.toList

theorem sortStrings_perm (l : List String) : List.Perm (sortStrings l) l :=
  List.mergeSort_perm l strLe

theorem sortStrings_sorted (l : List String) : List.Sorted (· ≤ ·) (sortStrings l) := by
  have h : (l.mergeSort strLe).Pairwise (fun a b => strLe a b = true) := by
    apply List.sorted_mergeSort
    · intro a b c hab hbc
      exact (strLe_eq_true_iff a c).mpr
        (le_trans ((strLe_eq_true_iff a b).mp hab) ((strLe_eq_true_iff b c).mp hbc))
    · intro a b
      rcases le_total a b with h | h
      · simp [(strLe_eq_true_iff a b).mpr h]
      · simp [(strLe_eq_true_iff b a).mpr h]
  exact h.imp (fun hab => (strLe_eq_true_iff _ _).mp hab)

theorem csort_sorted (l : List Char) : List.Sorted (· ≤ ·) (csort l) :=
  List.sorted_mergeSort' l

theorem csort_eq_iff_perm (l₁ l₂ : List Char) : csort l₁ = csort l₂ ↔ List.Perm l₁ l₂ := by
  constructor
  · intro h
    have h₁ : List.Perm l₁ (csort l₁) := (List.mergeSort_perm l₁ _).symm
    rw [h] at h₁
    exact h₁.trans (List.mergeSort_perm l₂ _)
  · intro h
    exact List.eq_of_perm_of_sorted
      (((List.mergeSort_perm l₁ _).trans h).trans (List.mergeSort_perm l₂ _).symm)
      (List.sorted_mergeSort' _) (List.sorted_mergeSort' _)

theorem collectStrings_map_str (l : List String) :
    collectStrings (l.map Value.str) = .ok l := by
  induction l with
  | nil => rfl
  | cons s rest ih => simp [collectStrings, Value.as_str, ih, Except.map]

theorem collectStrings_error_msg (items : List Value) : ∀ (e : String),
    collectStrings items = .error e → e = "Invalid params" := by
  induction items with
  | nil =>
    intro e h
    simp [collectStrings] at h
  | cons item rest ih =>
    intro e h
    rw [collectStrings] at h
    rcases hs : item.as_str with _ | s <;> rw [hs] at h
    · simp at h
      exact h.symm
    · rcases hrest : collectStrings rest with e' | l <;> rw [hrest] at h <;>
        simp [Except.map] at h
      subst h
      exact ih e' hrest

/-! ### The method table and the uniform "Invalid params" failure -/

theorem rpc_floor_error_msg (p : Value) (e : String)
    (h : rpc_floor p = .error e) : e = "Invalid params" := by
  unfold rpc_floor at h
  split at h
  · split at h <;> simp_all
  · simp_all

theorem rpc_nroot_error_msg (p : Value) (e : String)
    (h : rpc_nroot p = .error e) : e = "Invalid params" := by
  unfold rpc_nroot at h
  split at h
  · split at h
    · split at h <;> simp_all
    · simp_all
  · simp_all

theorem rpc_reverse_error_msg (p : Value) (e : String)
    (h : rpc_reverse p = .error e) : e = "Invalid params" := by
  unfold rpc_reverse at h
  split at h
  · split at h <;> simp_all
  · simp_all

theorem rpc_valid_anagram_error_msg (p : Value) (e : String)
    (h : rpc_valid_anagram p = .error e) : e = "Invalid params" := by
  unfold rpc_valid_anagram at h
  split at h
  · split at h
    · split at h <;> simp_all
    · simp_all
  · simp_all

theorem rpc_sort_error_msg (p : Value) (e : String)
    (h : rpc_sort p = .error e) : e = "Invalid params" := by
  unfold rpc_sort at h
  split at h
  · split at h
    · split at h
      · simp_all
      · simp only [Except.error.injEq] at h
        subst h
        exact collectStrings_error_msg _ _ (by assumption)
    · simp_all
  · simp_all

theorem method_table_get_mem (name : String) (f : RpcMethod)
    (h : method_table_get name = some f) :
    f = rpc_floor ∨ f = rpc_nroot ∨ f = rpc_reverse ∨ f = rpc_valid_anagram ∨ f = rpc_sort := by
  unfold method_table_get create_method_table at h
  simp only [List.find?] at h
  repeat' split at h
  all_goals simp_all

theorem registered_method_error_msg (name : String) (f : RpcMethod) (p : Value) (e : String)
    (hf : method_table_get name = some f) (he : f p = .error e) : e = "Invalid params" := by
  rcases method_table_get_mem name f hf with h | h | h | h | h <;> subst h
  · exact rpc_floor_error_msg p e he
  · exact rpc_nroot_error_msg p e he
  · exact rpc_reverse_error_msg p e he
  · exact rpc_valid_anagram_error_msg p e he
  · exact rpc_sort_error_msg p e he

theorem method_table_get_none (name : String)
    (h1 : name ≠ "floor") (h2 : name ≠ "nroot") (h3 : name ≠ "reverse")
    (h4 : name ≠ "valid_anagram") (h5 : name ≠ "sort") :
    method_table_get name = none := by
  unfold method_table_get create_method_table
  simp [List.find?, beq_eq_false_iff_ne.mpr (Ne.symm h1), beq_eq_false_iff_ne.mpr (Ne.symm h2),
    beq_eq_false_iff_ne.mpr (Ne.symm h3), beq_eq_false_iff_ne.mpr (Ne.symm h4),
    beq_eq_false_iff_ne.mpr (Ne.symm h5)]

/-! ### Claims -/

/-- C1: for every request line that decodes successfully, whose method name is
registered, and whose params the method accepts, the emitted success response
carries the request's id together with the method's result string and
result_type tag. -/
theorem claim_C1_success_id_preserved (v : Value) (req : RpcRequest) (f : RpcMethod)
    (r t : String) (hdec : decodeRpcRequest v = some req)
    (hf : method_table_get req.method = some f) (hok : f req.params = .ok (r, t)) :
    processLine (some v) = .success r t req.id := by
  simp [processLine, hdec, processRequest, hf, hok]

theorem claim_C1_witness :
    processLine (some (.obj [("method", Value.str "reverse"),
        ("params", Value.arr [Value.str "abc"]), ("id", Value.num (.int 7))])) =
      .success "cba" "string" 7 :=
  claim_C1_success_id_preserved _ ⟨"reverse", Value.arr [Value.str "abc"], none, 7⟩
    rpc_reverse "cba" "string" rfl rfl rfl

/-- C2: whenever a registered method rejects its params, the rejection message
is exactly "Invalid params" (uniformly across all five methods), and the
emitted response is an error object with code -32602, that message, and the
original request id. -/
theorem claim_C2_invalid_params (v : Value) (req : RpcRequest) (f : RpcMethod) (e : String)
    (hdec : decodeRpcRequest v = some req) (hf : method_table_get req.method = some f)
    (he : f req.params = .error e) :
    processLine (some v) = .error (-32602) "Invalid params" req.id
    ∧ rpc_floor (.arr []) = .error "Invalid params"
    ∧ rpc_nroot (.arr [.num (.int 5)]) = .error "Invalid params"
    ∧ rpc_reverse (.arr [.num (.int 1)]) = .error "Invalid params"
    ∧ rpc_valid_anagram (.str "x") = .error "Invalid params"
    ∧ rpc_sort (.arr [.arr [.str "a", .num (.int 1)]]) = .error "Invalid params" := by
  have hmsg : e = "Invalid params" := registered_method_error_msg req.method f req.params e hf he
  subst hmsg
  refine ⟨?_, rfl, rfl, rfl, rfl, rfl⟩
  simp [processLine, hdec, processRequest, hf, he]

theorem claim_C2_witness :
    processLine (some (.obj [("method", Value.str "floor"),
        ("params", Value.arr [Value.str "x"]), ("id", Value.num (.int 3))])) =
      .error (-32602) "Invalid params" 3
    ∧ rpc_floor (.arr []) = .error "Invalid params"
    ∧ rpc_nroot (.arr [.num (.int 5)]) = .error "Invalid params"
    ∧ rpc_reverse (.arr [.num (.int 1)]) = .error "Invalid params"
    ∧ rpc_valid_anagram (.str "x") = .error "Invalid params"
    ∧ rpc_sort (.arr [.arr [.str "a", .num (.int 1)]]) = .error "Invalid params" :=
  claim_C2_invalid_params _ ⟨"floor", Value.arr [Value.str "x"], none, 3⟩
    rpc_floor "Invalid params" rfl rfl rfl

/-- C3: a decoded request whose method name is none of the five registered
names yields an error response with code -32601, message "Method not found",
and the request's original id. -/
theorem claim_C3_method_not_found (v : Value) (req : RpcRequest)
    (hdec : decodeRpcRequest v = some req)
    (h1 : req.method ≠ "floor") (h2 : req.method ≠ "nroot") (h3 : req.method ≠ "reverse")
    (h4 : req.method ≠ "valid_anagram") (h5 : req.method ≠ "sort") :
    processLine (some v) = .error (-32601) "Method not found" req.id := by
  simp [processLine, hdec, processRequest, method_table_get_none req.method h1 h2 h3 h4 h5]

theorem claim_C3_witness :
    processLine (some (.obj [("method", Value.str "echo"),
        ("params", Value.arr []), ("id", Value.num (.int 9))])) =
      .error (-32601) "Method not found" 9 :=
  claim_C3_method_not_found _ ⟨"echo", Value.arr [], none, 9⟩ rfl
    (by decide) (by decide) (by decide) (by decide) (by decide)

/-- C4: every input line that fails to decode — not JSON at all (`none`) or
JSON not conforming to the request shape — yields an error response with code
-32602, message "Invalid params", and id 0. -/
theorem claim_C4_decode_failure (line : Option Value)
    (hdec : line.bind decodeRpcRequest = none) :
    processLine line = .error (-32602) "Invalid params" 0 := by
  simp [processLine, hdec]

theorem claim_C4_witness :
    processLine (some (.str "oops")) = .error (-32602) "Invalid params" 0 :=
  claim_C4_decode_failure (some (.str "oops")) rfl

/-- C10: request decoding tolerates unknown extra fields — any JSON object
with a string `method`, an unsigned-integer `id`, any `params` value, a
well-typed optional `param_types`, and arbitrary additional fields decodes
successfully. -/
theorem claim_C10_extra_fields_ignored (fields : List (String × Value)) (m : String)
    (p : Value) (n : ℤ) (pt : Option (List String))
    (hm : lookupField fields "method" = some (.str m))
    (hp : lookupField fields "params" = some p)
    (hid : lookupField fields "id" = some (.num (.int n)))
    (hn0 : 0 ≤ n) (hn1 : n < 2 ^ 64)
    (hpt : decodeParamTypes (lookupField fields "param_types") = some pt) :
    decodeRpcRequest (.obj fields) = some ⟨m, p, pt, n.toNat⟩ := by
  simp only [decodeRpcRequest, hm, hp, hid, hpt]
  rw [if_pos ⟨hn0, hn1⟩]

theorem claim_C10_witness :
    decodeRpcRequest (.obj [("jsonrpc", Value.str "2.0"), ("method", Value.str "sort"),
        ("params", Value.arr []), ("id", Value.num (.int 1)), ("extra", Value.bool true)]) =
      some ⟨"sort", Value.arr [], none, 1⟩ :=
  claim_C10_extra_fields_ignored _ "sort" (Value.arr []) 1 none
    rfl rfl rfl (by decide) (by decide) rfl

/-- C5: on every params array whose first element is a number, floor returns
the floor of that number rendered as the numeric string of a double, tagged
"int" (floor of a double is integral, and Rust renders an integral double as
a plain integer string); in particular floor([3.7]) = "3" and
floor([-3.2]) = "-4".  The floor is characterised by the usual bounds. -/
theorem claim_C5_floor (k : JNum) (rest : List Value) (q : ℚ) :
    rpc_floor (.arr (.num k :: rest)) = .ok (toString (Int.floor k.as_f64), "int")
    ∧ ((Int.floor q : ℚ) ≤ q ∧ q < Int.floor q + 1)
    ∧ rpc_floor (.arr [.num (.float (mkRat 37 10))]) = .ok ("3", "int")
    ∧ rpc_floor (.arr [.num (.float (mkRat (-32) 10))]) = .ok ("-4", "int") := by
  refine ⟨?_, ⟨Int.floor_le q, Int.lt_floor_add_one q⟩, ?_, ?_⟩
  · simp [rpc_floor, Value.as_array, Value.as_f64]
  · rfl
  · rfl

unseal List.mergeSort List.merge in
/-- C6: on every params array whose first element is an array consisting
entirely of strings, sort returns those strings sorted ascending
lexicographically, re-encoded as a JSON array whose text is the result
string, tagged "string"; in particular on ["banana","apple","cherry"] the
result is "[\"apple\",\"banana\",\"cherry\"]". -/
theorem claim_C6_sort (l : List String) (rest : List Value) :
    rpc_sort (.arr (.arr (l.map Value.str) :: rest)) =
      .ok (encodeStringList (sortStrings l), "string")
    ∧ List.Sorted (· ≤ ·) (sortStrings l)
    ∧ List.Perm (sortStrings l) l
    ∧ rpc_sort (.arr [.arr [Value.str "banana", Value.str "apple", Value.str "cherry"]]) =
        .ok ("[\"apple\",\"banana\",\"cherry\"]", "string") := by
  refine ⟨?_, sortStrings_sorted l, sortStrings_perm l, ?_⟩
  · simp [rpc_sort, Value.as_array, collectStrings_map_str]
  · rfl

unseal List.mergeSort List.merge in
/-- C7: on every params array whose first two elements are strings,
valid_anagram returns "true" exactly when the character multisets of the two
strings are equal and "false" otherwise, tagged "bool"; in particular
("listen","silent") gives "true" and ("ab","abc") gives "false". -/
theorem claim_C7_valid_anagram (s1 s2 : String) (rest : List Value) :
    (rpc_valid_anagram (.arr (.str s1 :: .str s2 :: rest)) = .ok ("true", "bool")
      ↔ (s1.toList : Multiset Char) = (s2.toList : Multiset Char))
    ∧ (rpc_valid_anagram (.arr (.str s1 :: .str s2 :: rest)) = .ok ("false", "bool")
      ↔ (s1.toList : Multiset Char) ≠ (s2.toList : Multiset Char))
    ∧ rpc_valid_anagram (.arr [.str "listen", .str "silent"]) = .ok ("true", "bool")
    ∧ rpc_valid_anagram (.arr [.str "ab", .str "abc"]) = .ok ("false", "bool") := by
  have hrun : rpc_valid_anagram (.arr (.str s1 :: .str s2 :: rest)) =
      .ok (toString (csort s1.toList == csort s2.toList), "bool") := by
    simp [rpc_valid_anagram, Value.as_array, Value.as_str]
  have key : (csort s1.toList == csort s2.toList) = true ↔
      (s1.toList : Multiset Char) = (s2.toList : Multiset Char) := by
    rw [beq_iff_eq, csort_eq_iff_perm]
    exact Multiset.coe_eq_coe.symm
  refine ⟨?_, ?_, rfl, rfl⟩
  · rw [hrun, ← key]
    cases csort s1.toList == csort s2.toList <;> simp <;> decide
  · rw [hrun]
    show _ ↔ ¬ ((s1.toList : Multiset Char) = (s2.toList : Multiset Char))
    rw [← key]
    cases csort s1.toList == csort s2.toList <;> simp <;> decide

/-- C9: every leaf method tolerates surplus positional arguments — floor,
reverse and sort depend only on the first element, and nroot/valid_anagram
succeed on any array whose first two elements have the expected types,
whatever follows. -/
theorem claim_C9_extra_args (x : Value) (k a b : JNum) (s s1 s2 : String)
    (rest : List Value) :
    rpc_floor (.arr (x :: rest)) = rpc_floor (.arr [x])
    ∧ rpc_reverse (.arr (x :: rest)) = rpc_reverse (.arr [x])
    ∧ rpc_sort (.arr (x :: rest)) = rpc_sort (.arr [x])
    ∧ rpc_floor (.arr (.num k :: rest)) = .ok (toString (Int.floor k.as_f64), "int")
    ∧ rpc_reverse (.arr (.str s :: rest)) = .ok (String.mk s.toList.reverse, "string")
    ∧ rpc_nroot (.arr (.num a :: .num b :: rest)) =
        .ok ((nroot_float a.as_f64 b.as_f64).display, "double")
    ∧ rpc_valid_anagram (.arr (.str s1 :: .str s2 :: rest)) =
        .ok (toString (csort s1.toList == csort s2.toList), "bool") := by
  refine ⟨?_, ?_, ?_, ?_, ?_, ?_, ?_⟩
  · simp [rpc_floor, Value.as_array]
  · simp [rpc_reverse, Value.as_array]
  · simp [rpc_sort, Value.as_array]
  · simp [rpc_floor, Value.as_array, Value.as_f64]
  · simp [rpc_reverse, Value.as_array, Value.as_str]
  · simp [rpc_nroot, Value.as_array, Value.as_f64]
  · simp [rpc_valid_anagram, Value.as_array, Value.as_str]

/-- C8 counterexample: with n = 0 and x = 1 the call succeeds, but the
computed double `1^(1/0) = 1^(+inf)` is the finite value 1 (IEEE-754
`pow(±1, ±inf) = 1`), not an infinite or NaN value; the stringified result is
"1". -/
theorem claim_C8_counterexample :
    rpc_nroot (.arr [Value.num (.int 0), Value.num (.int 1)]) = .ok ("1", "double")
    ∧ nroot_float (JNum.as_f64 (.int 0)) (JNum.as_f64 (.int 1)) = .finite 1
    ∧ (F64.finite 1).isInfOrNan = false := by
  refine ⟨rfl, rfl, rfl⟩

/-- C8 amended: with n = 0, nroot is not an "Invalid params" error — it
returns Ok with the stringified value of x^(1/0) = x^(+inf), which is +inf
when |x| > 1, 1 when |x| = 1 and 0 when |x| < 1; it is never NaN (e.g.
nroot([0,2]) = "inf", nroot([0,0.5]) = "0"). -/
theorem claim_C8_nroot_div_zero (x : JNum) (rest : List Value) :
    rpc_nroot (.arr (Value.num (.int 0) :: Value.num x :: rest)) =
      .ok ((nroot_float 0 x.as_f64).display, "double")
    ∧ nroot_float 0 x.as_f64 =
        (if 1 < |x.as_f64| then F64.inf else if |x.as_f64| = 1 then .finite 1 else .finite 0)
    ∧ nroot_float 0 x.as_f64 ≠ F64.nan
    ∧ rpc_nroot (.arr [Value.num (.int 0), Value.num (.int 2)]) = .ok ("inf", "double")
    ∧ rpc_nroot (.arr [Value.num (.int 0), Value.num (.float (mkRat 1 2))]) =
        .ok ("0", "double") := by
  refine ⟨?_, ?_, ?_, rfl, rfl⟩
  · simp [rpc_nroot, Value.as_array, Value.as_f64, JNum.as_f64]
  · simp [nroot_float, oneDivF64, powfF64]
  · simp only [nroot_float, oneDivF64, if_pos rfl, powfF64]
    split_ifs <;> simp
